import Mathlib

/-!
# mastidon_numbers: the metric mapper of `main.go`

A shallow embedding of the data transformation in `src/main.go`
(`Instances.AboveUsers`, `Instances.InstancesPoints`, `Instances.TotalPoint`)
and of the cycle around it (`idb`, `getData`, `doStuff`), with theorems about
the points and the batch they build.

Conventions of the embedding:

* Go's `int` is the 64-bit two's complement integer of the usual targets. A
  value is an `Int`; every arithmetic step of the source (`c++`,
  `statuses += ...`) is followed by `wrapInt`.
* A Go `map[string]T` is a function `String → Option T`; indexing a missing key
  yields the zero value of `T`, as in Go.
* `log.Fatal` ends the process: it is the `.error` branch of `Except`.
* `time.Now()` is an explicit argument.
* The HTTP request, the JSON decoder, the process environment and the write to
  the sink are the members of a `World` record passed to the cycle.
-/

namespace Mastidon

set_option linter.dupNamespace false

/-! ## Machine integers -/

/-- Reduction of an integer to the range of Go's 64-bit `int`
(two's complement wrap-around). -/
def wrapInt (n : Int) : Int := (n + 2 ^ 63) % 2 ^ 64 - 2 ^ 63

/-- Membership in the range of Go's 64-bit `int`. -/
def inIntRange (n : Int) : Prop := -(2 ^ 63) ≤ n ∧ n < 2 ^ 63

instance (n : Int) : Decidable (inIntRange n) := by
  unfold inIntRange
  exact inferInstance

/-! ## The decoded document (`type Instances struct`) -/

/-- A `float64`. The mapper only copies such values, so one is carried as its
IEEE-754 bit pattern. -/
structure Float64 where
  bits : Nat
deriving DecidableEq, Repr

/-- A value of type `interface{}` as `encoding/json` decodes it. Of the list
`OtherProhibitedContent` the mapper reads only the length. -/
inductive Any where
  | null
  | bool (b : Bool)
  | number (f : Float64)
  | string (s : String)
deriving DecidableEq, Repr

/-- The `Infos` block of an instance record (the members the mapper reads). -/
structure Infos where
  OptOut : Bool
  Languages : List String
  NoOtherLanguages : Bool
  ProhibitedContent : List String
  OtherProhibitedContent : List Any
  Federation : String
  Bots : String
  Brands : String
deriving DecidableEq, Repr

/-- One element of `Instances.Instances` (the members the mapper reads; the
time stamps, descriptions and remaining flags of the Go struct are never read
by `AboveUsers`, `InstancesPoints` or `TotalPoint`). -/
structure Instance where
  ID : String
  Name : String
  Downchecks : Int
  Upchecks : Int
  HTTPSRank : String
  HTTPSScore : Int
  ObsRank : String
  ObsScore : Int
  Up : Bool
  Users : Int
  UsersChangeRatio : Int
  Statuses : Int
  Connections : Int
  OpenRegistrations : Bool
  Uptime : Float64
  Infos : Infos
  Version : String
  Score : Float64
  Dead : Bool
  Connected : Int
  Blacklisted : Bool
deriving DecidableEq, Repr

/-- The snapshot: `type Instances struct` (the language, country and
prohibited-content catalogues of the Go struct are never read by the mapper). -/
structure Instances where
  Instances : List Instance
  TotalUsers : Int
deriving DecidableEq, Repr

/-! ## Go maps and metric points -/

/-- A Go `map[string]T`. -/
abbrev GoMap (T : Type) := String → Option T

/-- A composite literal `map[string]T{k₁: v₁, ...}` with distinct keys. -/
def mapLiteral {T : Type} (entries : List (String × T)) : GoMap T :=
  fun k => entries.lookup k

/-- The index expression `m[k]` of a `map[string]string`: the zero value `""`
when the key is missing. -/
def mapIndex (m : GoMap String) (k : String) : String := (m k).getD ""

/-- The assignment `m[k] = v`. -/
def mapAssign {T : Type} (m : GoMap T) (k : String) (v : T) : GoMap T :=
  fun k' => if k' = k then some v else m k'

/-- A value stored in a `map[string]interface{}` of fields: the mapper stores
`int` and `float64` values. -/
inductive FieldValue where
  | int (n : Int)
  | float (f : Float64)
deriving DecidableEq, Repr

/-- A metric point: measurement name, tags, fields and time stamp. -/
structure Point where
  name : String
  tags : GoMap String
  fields : GoMap FieldValue
  time : Int

/-- Modelled from the spec: `client.NewPoint` of the InfluxDB client library,
which is not part of the repository's sources. The spec's Metric Point is "an
immutable, timestamped tuple of (measurement name, set of string tags, set of
numeric/string field values)"; the constructor builds that tuple. The `error`
result of the Go signature is kept as the `Except` type. -/
def NewPoint (name : String) (tags : GoMap String) (fields : GoMap FieldValue)
    (t : Int) : Except String Point :=
  .ok { name := name, tags := tags, fields := fields, time := t }

/-- The integer stored under a field name of a point (`0` when the field is
missing or is not an `int`). -/
def Point.intField (p : Point) (k : String) : Int :=
  match p.fields k with
  | some (.int n) => n
  | _ => 0

/-! ## `AboveUsers` -/

/-- `func (i Instances) AboveUsers(count int) int`: the loop
`c := 0; for ... { if inst.Users > count { c++ } }; return c`. -/
def Instances.AboveUsers (i : Mastidon.Instances) (count : Int) : Int :=
  i.Instances.foldl (fun c inst => if inst.Users > count then wrapInt (c + 1) else c) 0

/-- `func toStrB(i bool) string`: `fmt.Sprintf("%v", i)` of a `bool`. -/
def toStrB (i : Bool) : String := if i then "true" else "false"

/-! ## `InstancesPoints` -/

/-- The twelve prohibited-content category tags, in the order of the map
literal of `InstancesPoints`. -/
def categoryTags : List String :=
  ["nudityNocw", "nudityAll", "pornographyNocw", "pornographyAll", "sexism", "racism",
   "illegalContentLinks", "spam", "advertising", "hateSpeeches", "harrassment",
   "spoilersNocw"]

/-- The body of the inner loop of `InstancesPoints`:
`if tags[pro] == "allowed" { tags[pro] = "banned" }`. -/
def banStep (tags : GoMap String) (pro : String) : GoMap String :=
  if mapIndex tags pro = "allowed" then mapAssign tags pro "banned" else tags

/-- The map literal `tags := map[string]string{...}` of `InstancesPoints`. -/
def initialTags (inst : Instance) : GoMap String :=
  let opc := if inst.Infos.OtherProhibitedContent.length > 0 then "yes" else "no"
  mapLiteral [
    ("id", inst.ID),
    ("name", inst.Name),
    ("httpsRank", inst.HTTPSRank),
    ("obsRank", inst.ObsRank),
    ("up", toStrB inst.Up),
    ("openRegistrations", toStrB inst.OpenRegistrations),
    ("optOut", toStrB inst.Infos.OptOut),
    ("noOtherLanguages", toStrB inst.Infos.NoOtherLanguages),
    ("federation", inst.Infos.Federation),
    ("bots", inst.Infos.Bots),
    ("brands", inst.Infos.Brands),
    ("version", inst.Version),
    ("dead", toStrB inst.Dead),
    ("blacklisted", toStrB inst.Blacklisted),
    ("otherProhibitedContent", opc),
    ("nudityNocw", "allowed"),
    ("nudityAll", "allowed"),
    ("pornographyNocw", "allowed"),
    ("pornographyAll", "allowed"),
    ("sexism", "allowed"),
    ("racism", "allowed"),
    ("illegalContentLinks", "allowed"),
    ("spam", "allowed"),
    ("advertising", "allowed"),
    ("hateSpeeches", "allowed"),
    ("harrassment", "allowed"),
    ("spoilersNocw", "allowed")]

/-- The tags of the point of one instance: the map literal, then the loop over
`inst.Infos.ProhibitedContent`. -/
def instanceTags (inst : Instance) : GoMap String :=
  inst.Infos.ProhibitedContent.foldl banStep (initialTags inst)

/-- The map literal `fields := map[string]interface{}{...}` of
`InstancesPoints`. -/
def instanceFields (i : Instances) (inst : Instance) : GoMap FieldValue :=
  mapLiteral [
    ("score", .float inst.Score),
    ("connected", .int inst.Connected),
    ("languages", .int inst.Infos.Languages.length),
    ("obsScore", .int inst.ObsScore),
    ("httpsScore", .int inst.HTTPSScore),
    ("usersChangeRatio", .int inst.UsersChangeRatio),
    ("downchecks", .int inst.Downchecks),
    ("upchecks", .int inst.Upchecks),
    ("uptime", .float inst.Uptime),
    ("users", .int inst.Users),
    ("statuses", .int inst.Statuses),
    ("connections", .int inst.Connections),
    ("totalUsers", .int i.TotalUsers),
    ("totalInstances", .int i.Instances.length)]

/-- The outer loop of `InstancesPoints` over the instances still to visit,
with the slice `pts` built so far. The reading of `time.Now()` in the
iteration that builds the `k`-th point is `now k`. A failing `NewPoint` ends
the process (`log.Fatal`). -/
def InstancesPoints.loop (i : Instances) (now : Nat → Int) :
    List Instance → List Point → Except String (List Point)
  | [], pts => .ok pts
  | inst :: rest, pts =>
    match NewPoint "instances" (instanceTags inst) (instanceFields i inst) (now pts.length) with
    | .error err => .error err
    | .ok pt => InstancesPoints.loop i now rest (pts ++ [pt])

/-- `func (i Instances) InstancesPoints() []*client.Point`. -/
def Instances.InstancesPoints (i : Mastidon.Instances) (now : Nat → Int) : Except String (List Point) :=
  InstancesPoints.loop i now i.Instances []

/-! ## `TotalPoint` -/

/-- The first loop of `TotalPoint`:
`statuses := 0; for ... { statuses += inst.Statuses }`. -/
def totalStatuses (i : Instances) : Int :=
  i.Instances.foldl (fun statuses inst => wrapInt (statuses + inst.Statuses)) 0

/-- The map literal `fields := map[string]interface{}{...}` of `TotalPoint`. -/
def totalFields (i : Instances) : GoMap FieldValue :=
  mapLiteral [
    ("totalUsers", .int i.TotalUsers),
    ("totalInstances", .int i.Instances.length),
    ("totalStatuses", .int (totalStatuses i)),
    ("above2", .int (i.AboveUsers 2)),
    ("above5", .int (i.AboveUsers 5)),
    ("above10", .int (i.AboveUsers 10)),
    ("above50", .int (i.AboveUsers 50)),
    ("above100", .int (i.AboveUsers 100)),
    ("above500", .int (i.AboveUsers 500)),
    ("above1000", .int (i.AboveUsers 1000)),
    ("above5000", .int (i.AboveUsers 5000)),
    ("above10000", .int (i.AboveUsers 10000))]

/-- The map literal `tags := map[string]string{...}` of `TotalPoint`. -/
def totalTags : GoMap String :=
  mapLiteral [("scrapedFrom", "https://instances.mastodon.xyz/list.json")]

/-- `func (i Instances) TotalPoint() *client.Point`; `now` is the reading of
`time.Now()`. A failing `NewPoint` ends the process (`log.Fatal`). -/
def Instances.TotalPoint (i : Mastidon.Instances) (now : Int) : Except String Point :=
  match NewPoint "totals" totalTags (totalFields i) now with
  | .error err => .error err
  | .ok pt => .ok pt

/-! ## Example records -/

/-- An instance record with every member at its Go zero value. -/
def zeroInstance : Instance :=
  { ID := "", Name := "", Downchecks := 0, Upchecks := 0, HTTPSRank := "", HTTPSScore := 0,
    ObsRank := "", ObsScore := 0, Up := false, Users := 0, UsersChangeRatio := 0,
    Statuses := 0, Connections := 0, OpenRegistrations := false, Uptime := ⟨0⟩,
    Infos := { OptOut := false, Languages := [], NoOtherLanguages := false,
               ProhibitedContent := [], OtherProhibitedContent := [],
               Federation := "", Bots := "", Brands := "" },
    Version := "", Score := ⟨0⟩, Dead := false, Connected := 0, Blacklisted := false }

/-- The instance of the end-to-end scenario of the spec: 1500 users, 10
statuses and prohibited-content list `["spam"]`. -/
def scenarioFirst : Instance :=
  { zeroInstance with
      ID := "a1", Name := "one.example", Users := 1500, Statuses := 10,
      Infos := { zeroInstance.Infos with ProhibitedContent := ["spam"] } }

/-- An instance with exactly 1000 users and an empty prohibited-content list. -/
def scenarioSecond : Instance :=
  { zeroInstance with ID := "b2", Name := "two.example", Users := 1000, Statuses := 4 }

/-- The scenario instance followed by the instance with exactly 1000 users. -/
def scenarioSnapshot : Instances :=
  { Instances := [scenarioFirst, scenarioSecond], TotalUsers := 2500 }

/-- A snapshot with no instances and a non-zero `TotalUsers`. -/
def emptySnapshot : Instances :=
  { Instances := [], TotalUsers := 42 }

/-- Two instances whose status counts are each `2^62`. -/
def overflowSnapshot : Instances :=
  { Instances := [{ zeroInstance with Statuses := 2 ^ 62 }, { zeroInstance with Statuses := 2 ^ 62 }],
    TotalUsers := 0 }

/-- A document whose `totalUsers` member is `0` while its one instance has a
user. -/
def mismatchSnapshot : Instances :=
  { Instances := [{ zeroInstance with Users := 1 }], TotalUsers := 0 }

/-- An instance whose `_id` is the string `"allowed"` and whose
prohibited-content list names the tag key `"id"`. -/
def shadowInstance : Instance :=
  { zeroInstance with
      ID := "allowed", Name := "shadow.example",
      Infos := { zeroInstance.Infos with ProhibitedContent := ["id"] } }

/-- The record `shadowInstance` with the entry `"id"` removed from its
prohibited-content list. -/
def shadowInstanceDropped : Instance :=
  { shadowInstance with Infos := { shadowInstance.Infos with ProhibitedContent := [] } }

/-- The nine thresholds passed to `AboveUsers` by `TotalPoint`. -/
def thresholds : List Int := [2, 5, 10, 50, 100, 500, 1000, 5000, 10000]

/-- An instance record with its prohibited-content list replaced. -/
def withProhibitedContent (inst : Instance) (l : List String) : Instance :=
  { inst with Infos := { inst.Infos with ProhibitedContent := l } }

/-- A snapshot in which the prohibited-content list of the instance at index
`a` is replaced by `l` (the snapshot itself when there is no such index). -/
def replaceProhibitedContent (s : Instances) (a : Nat) (l : List String) : Instances :=
  match s.Instances[a]? with
  | some inst => { s with Instances := s.Instances.set a (withProhibitedContent inst l) }
  | none => s

/-! ## `idb` -/

/-- `client.HTTPConfig` (the member `idb` sets). -/
structure HTTPConfig where
  Addr : String
deriving DecidableEq, Repr

/-- `client.BatchPointsConfig` (the members `idb` sets). -/
structure BatchPointsConfig where
  Database : String
  Precision : String
deriving DecidableEq, Repr

/-- A `client.Client`: the configuration it was opened with. -/
structure Client where
  conf : HTTPConfig
deriving DecidableEq, Repr

/-- A `client.BatchPoints`: its configuration and the points added so far. -/
structure BatchPoints where
  conf : BatchPointsConfig
  points : List Point

/-- `os.Getenv`: the value of the variable, `""` when the variable is not
present. The process environment is a function from names to optional
values. -/
def Getenv (environ : String → Option String) (key : String) : String :=
  (environ key).getD ""

/-- Modelled from the spec: `client.NewHTTPClient` of the InfluxDB client
library, not part of the repository's sources. The Sink Writer "opens a
connection to a configured time-series endpoint"; the client is the record of
that configuration. -/
def NewHTTPClient (conf : HTTPConfig) : Except String Client :=
  .ok { conf := conf }

/-- Modelled from the spec: `client.NewBatchPoints` of the InfluxDB client
library, not part of the repository's sources: an empty batch "tagged with a
fixed target database and second-level time precision". -/
def NewBatchPoints (conf : BatchPointsConfig) : Except String BatchPoints :=
  .ok { conf := conf, points := [] }

/-- Modelled from the spec: `bp.AddPoint(pt)` of the InfluxDB client library:
the batch "accumulates all points for the cycle". -/
def BatchPoints.AddPoint (bp : BatchPoints) (pt : Point) : BatchPoints :=
  { bp with points := bp.points ++ [pt] }

/-- Modelled from the spec: `bp.AddPoints(pts)` of the InfluxDB client
library. -/
def BatchPoints.AddPoints (bp : BatchPoints) (pts : List Point) : BatchPoints :=
  { bp with points := bp.points ++ pts }

/-- `func idb() (client.Client, client.BatchPoints)`, in the process
environment `environ`. -/
def idb (environ : String → Option String) : Except String (Client × BatchPoints) :=
  let conn := Getenv environ "INFLUXDB_CONNECTION"
  let conn := if conn = "" then "http://localhost:8086" else conn
  match NewHTTPClient { Addr := conn } with
  | .error err => .error err
  | .ok c =>
    match NewBatchPoints { Database := "mastidon", Precision := "s" } with
    | .error err => .error err
    | .ok bp => .ok (c, bp)

/-! ## `getData` and `doStuff` -/

/-- What one collection cycle meets outside the program: the outcome of the
HTTP request and of reading its body, the JSON decoder, the process
environment, the readings of `time.Now()` and the outcome of the write to the
sink. `unmarshal body r` is `json.Unmarshal(body, &r)`: the value it leaves in
`r` and the error it returns, if any. -/
structure World where
  httpGet : String → Except String (List Nat)
  readAll : List Nat → Except String (List Nat)
  unmarshal : List Nat → Instances → Instances × Option String
  environ : String → Option String
  now : Nat → Int
  write : Client → BatchPoints → Option String

/-- The zero value of `Instances` (`var r Instances`). -/
def zeroSnapshot : Instances :=
  { Instances := [], TotalUsers := 0 }

/-- `func getData() Instances`: the error returned by `json.Unmarshal` is
discarded. -/
def getData (w : World) : Except String Instances :=
  match w.httpGet "https://instances.mastodon.xyz/list.json" with
  | .error err => .error err
  | .ok resp =>
    match w.readAll resp with
    | .error err => .error err
    | .ok body => .ok (w.unmarshal body zeroSnapshot).1

/-- `func doStuff()`: the batch handed to `c.Write`, or the `log.Fatal` that
ended the process. `TotalPoint` takes the first reading of the clock and the
iterations of `InstancesPoints` the following ones. -/
def doStuff (w : World) : Except String BatchPoints :=
  match getData w with
  | .error err => .error err
  | .ok r =>
    match idb w.environ with
    | .error err => .error err
    | .ok (c, bp) =>
      match r.TotalPoint (w.now 0) with
      | .error err => .error err
      | .ok pt =>
        let bp := bp.AddPoint pt
        match r.InstancesPoints (fun k => w.now (k + 1)) with
        | .error err => .error err
        | .ok pts =>
          let bp := bp.AddPoints pts
          match w.write c bp with
          | some err => .error err
          | none => .ok bp

/-! ## Example environments -/

/-- A process environment in which `INFLUXDB_CONNECTION` is set to `v` and
nothing else is set. -/
def environWith (v : String) : String → Option String :=
  fun key => if key = "INFLUXDB_CONNECTION" then some v else none

/-- A cycle whose response body `[123, 33]` (the bytes of `{!`) the decoder
rejects, leaving the snapshot untouched; the write succeeds. -/
def malformedWorld : World :=
  { httpGet := fun _ => .ok [123, 33],
    readAll := fun resp => .ok resp,
    unmarshal := fun _ r => (r, some "invalid character in object key"),
    environ := fun _ => none,
    now := fun _ => 0,
    write := fun _ _ => none }

/-- Two snapshots for which `InstancesPoints` returns, whatever the clock
shows, lists of the same length whose points carry the same tags position by
position. -/
def SamePointTags (s s' : Instances) : Prop :=
  ∀ nowk nowk' : Nat → Int, ∃ pts pts',
    s.InstancesPoints nowk = .ok pts ∧ s'.InstancesPoints nowk' = .ok pts' ∧
    pts.length = pts'.length ∧
    ∀ (k : Nat) (p p' : Point), pts[k]? = some p → pts'[k]? = some p' → p.tags = p'.tags

/-! ## The mapper as a program on the memory of the snapshot

The methods have value receivers, but the receiver's slice shares its backing
array with the caller's variable, so a method could write into the caller's
snapshot. Here each loop is run on that memory: the state of an iteration is
the memory of the snapshot together with the local variables, and the run
returns the memory it leaves. -/

/-- The loop `for _, inst := range i.Instances { body }` with `n` iterations
left, the next one at index `k`. Each iteration copies element `k` out of the
memory into `inst` and runs the body on the memory and the locals. -/
def rangeInstances {σ : Type}
    (body : Instance → Instances × σ → Except String (Instances × σ)) :
    Nat → Nat → Instances × σ → Except String (Instances × σ)
  | 0, _, st => .ok st
  | n + 1, k, st =>
    match st.1.Instances[k]? with
    | none => .error "index out of range"
    | some inst =>
      match body inst st with
      | .error err => .error err
      | .ok st' => rangeInstances body n (k + 1) st'

/-- `AboveUsers` run on the memory `mem`: the memory it leaves and the value
it returns. -/
def runAboveUsers (count : Int) (mem : Instances) : Except String (Instances × Int) :=
  rangeInstances
    (fun inst st => .ok (st.1, if inst.Users > count then wrapInt (st.2 + 1) else st.2))
    mem.Instances.length 0 (mem, 0)

/-- `TotalPoint` run on the memory `mem`: the memory it leaves and the point
it returns. The receiver `i` is the copy of the snapshot made at the call; the
nine calls of `AboveUsers` run in the order of the map literal. -/
def runTotalPoint (now : Int) (mem : Instances) : Except String (Instances × Point) := do
  let i := mem
  let (mem, statuses) ←
    rangeInstances (fun inst st => .ok (st.1, wrapInt (st.2 + inst.Statuses)))
      i.Instances.length 0 (mem, (0 : Int))
  let (mem, a2) ← runAboveUsers 2 mem
  let (mem, a5) ← runAboveUsers 5 mem
  let (mem, a10) ← runAboveUsers 10 mem
  let (mem, a50) ← runAboveUsers 50 mem
  let (mem, a100) ← runAboveUsers 100 mem
  let (mem, a500) ← runAboveUsers 500 mem
  let (mem, a1000) ← runAboveUsers 1000 mem
  let (mem, a5000) ← runAboveUsers 5000 mem
  let (mem, a10000) ← runAboveUsers 10000 mem
  let fields : GoMap FieldValue := mapLiteral [
    ("totalUsers", .int i.TotalUsers),
    ("totalInstances", .int i.Instances.length),
    ("totalStatuses", .int statuses),
    ("above2", .int a2),
    ("above5", .int a5),
    ("above10", .int a10),
    ("above50", .int a50),
    ("above100", .int a100),
    ("above500", .int a500),
    ("above1000", .int a1000),
    ("above5000", .int a5000),
    ("above10000", .int a10000)]
  let pt ← NewPoint "totals" totalTags fields now
  return (mem, pt)

/-- `InstancesPoints` run on the memory `mem`: the memory it leaves and the
slice it returns. The receiver `i` is the copy of the snapshot made at the
call. -/
def runInstancesPoints (now : Nat → Int) (mem : Instances) :
    Except String (Instances × List Point) :=
  let i := mem
  rangeInstances
    (fun inst st =>
      match NewPoint "instances" (instanceTags inst) (instanceFields i inst)
          (now st.2.length) with
      | .error err => .error err
      | .ok pt => .ok (st.1, st.2 ++ [pt]))
    i.Instances.length 0 (mem, [])

/-- The two mapper calls of `doStuff`, `pt := r.TotalPoint()` and then
`pts := r.InstancesPoints()`, run on the memory of `r`: the memory they leave
and the points they return. -/
def runMapper (now : Int) (nowk : Nat → Int) (mem : Instances) :
    Except String (Instances × Point × List Point) := do
  let (mem, pt) ← runTotalPoint now mem
  let (mem, pts) ← runInstancesPoints nowk mem
  return (mem, pt, pts)

/-! ## Machine integers: lemmas -/

theorem wrapInt_of_inIntRange (n : Int) (h : inIntRange n) : wrapInt n = n := by
  unfold inIntRange at h
  unfold wrapInt
  omega

theorem wrapInt_add_wrapInt (a b : Int) : wrapInt (wrapInt a + b) = wrapInt (a + b) := by
  unfold wrapInt
  omega

/-! ## `AboveUsers`: lemmas -/

/-- The counting loop started at `c`: while the counter stays below `2^63` it
is `c` plus the number of instances above the threshold. -/
theorem aboveLoop_eq (count : Int) (l : List Instance) (c : Int) (h0 : 0 ≤ c)
    (hb : c + l.length < 2 ^ 63) :
    l.foldl (fun c inst => if inst.Users > count then wrapInt (c + 1) else c) c
      = c + ((l.filter (fun inst => decide (inst.Users > count))).length : Int) := by
  induction l generalizing c with
  | nil => simp
  | cons inst rest ih =>
    simp only [List.foldl_cons, List.length_cons, Nat.cast_add, Nat.cast_one] at hb ⊢
    by_cases hu : inst.Users > count
    · have hw : wrapInt (c + 1) = c + 1 := wrapInt_of_inIntRange _ ⟨by omega, by omega⟩
      rw [if_pos hu, hw, ih (c + 1) (by omega) (by omega)]
      simp [List.filter_cons, hu]
      omega
    · rw [if_neg hu, ih c h0 (by omega)]
      simp [List.filter_cons, hu]

theorem aboveUsers_eq_count (i : Instances) (count : Int) (hlen : i.Instances.length < 2 ^ 63) :
    i.AboveUsers count
      = ((i.Instances.filter (fun inst => decide (inst.Users > count))).length : Int) := by
  have h := aboveLoop_eq count i.Instances 0 (le_refl 0) (by
    have : (i.Instances.length : Int) < 2 ^ 63 := by exact_mod_cast hlen
    omega)
  simpa [Instances.AboveUsers] using h

/-! ## `TotalPoint`: lemmas -/

/-- The summing loop started at a wrapped value: the wrapped exact sum. -/
theorem statusesLoop_eq (l : List Instance) (a : Int) :
    l.foldl (fun statuses inst => wrapInt (statuses + inst.Statuses)) (wrapInt a)
      = wrapInt (a + (l.map (fun inst => inst.Statuses)).sum) := by
  induction l generalizing a with
  | nil => simp
  | cons inst rest ih =>
    simp only [List.foldl_cons, List.map_cons, List.sum_cons]
    rw [wrapInt_add_wrapInt, ih (a + inst.Statuses), add_assoc]

theorem totalStatuses_eq (i : Instances) :
    totalStatuses i = wrapInt ((i.Instances.map (fun inst => inst.Statuses)).sum) := by
  have h := statusesLoop_eq i.Instances 0
  have h0 : wrapInt 0 = 0 := by decide
  rw [h0, zero_add] at h
  exact h

theorem totalPoint_eq (i : Instances) (now : Int) :
    i.TotalPoint now
      = .ok { name := "totals", tags := totalTags, fields := totalFields i, time := now } := rfl

/-! ## `InstancesPoints`: lemmas -/

/-- The outer loop never fails; it appends to `pts` one point per remaining
instance, in order, with the tags, fields and measurement name of the loop
body. -/
theorem loop_spec (i : Instances) (now : Nat → Int) (l : List Instance) (pts : List Point) :
    ∃ res, InstancesPoints.loop i now l pts = .ok res ∧
      res.map Point.tags = pts.map Point.tags ++ l.map instanceTags ∧
      res.map Point.fields = pts.map Point.fields ++ l.map (instanceFields i) ∧
      res.map Point.name = pts.map Point.name ++ l.map (fun _ => "instances") := by
  induction l generalizing pts with
  | nil => exact ⟨pts, rfl, by simp, by simp, by simp⟩
  | cons inst rest ih =>
    obtain ⟨res, hres, ht, hf, hn⟩ :=
      ih (pts ++ [{ name := "instances", tags := instanceTags inst,
                    fields := instanceFields i inst, time := now pts.length }])
    refine ⟨res, ?_, ?_, ?_, ?_⟩
    · simpa [InstancesPoints.loop, NewPoint] using hres
    · simpa using ht
    · simpa using hf
    · simpa using hn

theorem instancesPoints_spec (i : Instances) (now : Nat → Int) :
    ∃ pts, i.InstancesPoints now = .ok pts ∧
      pts.map Point.tags = i.Instances.map instanceTags ∧
      pts.map Point.fields = i.Instances.map (instanceFields i) ∧
      pts.map Point.name = i.Instances.map (fun _ => "instances") := by
  obtain ⟨res, hres, ht, hf, hn⟩ := loop_spec i now i.Instances []
  exact ⟨res, hres, by simpa using ht, by simpa using hf, by simpa using hn⟩

/-- From an equality of mapped lists to the entries at one index. -/
theorem map_eq_map_at {α β γ : Type} (f : α → γ) (g : β → γ) (xs : List α) (ys : List β)
    (h : xs.map f = ys.map g) (k : Nat) (x : α) (y : β)
    (hx : xs[k]? = some x) (hy : ys[k]? = some y) : f x = g y := by
  have h1 : (xs.map f)[k]? = some (f x) := by simp [List.getElem?_map, hx]
  have h2 : (ys.map g)[k]? = some (g y) := by simp [List.getElem?_map, hy]
  rw [h] at h1
  rw [h1] at h2
  exact Option.some.inj h2

/-- The index expression `tags[pro]` is `"allowed"` exactly when the key is
present with that value. -/
theorem mapIndex_eq_allowed (m : GoMap String) (k : String) :
    mapIndex m k = "allowed" ↔ m k = some "allowed" := by
  unfold mapIndex
  cases hk : m k with
  | none => simp
  | some v => simp

/-- Closed form of the inner loop: a key ends as `"banned"` when it occurs in
the list and held `"allowed"` before the loop, and keeps its value otherwise. -/
theorem foldl_banStep (l : List String) (m : GoMap String) (k : String) :
    (l.foldl banStep m) k
      = if k ∈ l ∧ m k = some "allowed" then some "banned" else m k := by
  induction l generalizing m with
  | nil => simp
  | cons pro rest ih =>
    rw [List.foldl_cons, ih (banStep m pro)]
    have hne : ¬ ((some "banned" : Option String) = some "allowed") := by decide
    unfold banStep
    by_cases hp : mapIndex m pro = "allowed"
    · have hp2 := (mapIndex_eq_allowed m pro).1 hp
      rw [if_pos hp]
      by_cases hk : k = pro
      · subst hk
        simp [mapAssign, hp2]
      · simp [mapAssign, hk]
    · have hp2 : ¬ m pro = some "allowed" := fun h => hp ((mapIndex_eq_allowed m pro).2 h)
      rw [if_neg hp]
      by_cases hk : k = pro
      · subst hk
        simp [hp2]
      · simp [hk]

/-- The map literal gives every category tag the value `"allowed"`. -/
theorem initialTags_category (inst : Instance) (c : String) (hc : c ∈ categoryTags) :
    initialTags inst c = some "allowed" := by
  simp only [categoryTags, List.mem_cons, List.mem_singleton, List.not_mem_nil, or_false] at hc
  rcases hc with h | h | h | h | h | h | h | h | h | h | h | h <;> subst h <;> rfl

/-- The value of a category tag on the point of an instance. -/
theorem instanceTags_category (inst : Instance) (c : String) (hc : c ∈ categoryTags) :
    instanceTags inst c
      = some (if c ∈ inst.Infos.ProhibitedContent then "banned" else "allowed") := by
  unfold instanceTags
  rw [foldl_banStep, initialTags_category inst c hc]
  by_cases h : c ∈ inst.Infos.ProhibitedContent <;> simp [h]

/-- The points returned by `InstancesPoints` are determined by the list of
instances: same length, and the `k`-th point has the tags and fields of the
`k`-th instance. -/
theorem instancesPoints_at (i : Instances) (now : Nat → Int) (pts : List Point)
    (h : i.InstancesPoints now = .ok pts) :
    pts.length = i.Instances.length ∧
      ∀ (k : Nat) (inst : Instance) (p : Point), i.Instances[k]? = some inst → pts[k]? = some p →
        p.tags = instanceTags inst ∧ p.fields = instanceFields i inst ∧ p.name = "instances" := by
  obtain ⟨res, hres, ht, hf, hn⟩ := instancesPoints_spec i now
  rw [h] at hres
  have hpr : pts = res := by injection hres
  subst hpr
  refine ⟨?_, ?_⟩
  · have := congrArg List.length ht
    simpa using this
  · intro k inst p hi hp
    exact ⟨map_eq_map_at _ _ _ _ ht k p inst hp hi, map_eq_map_at _ _ _ _ hf k p inst hp hi,
      map_eq_map_at _ _ _ _ hn k p inst hp hi⟩

/-- Every point returned by `InstancesPoints` is the point of some instance of
the snapshot. -/
theorem instancesPoints_mem (i : Instances) (now : Nat → Int) (pts : List Point)
    (h : i.InstancesPoints now = .ok pts) (p : Point) (hp : p ∈ pts) :
    ∃ inst ∈ i.Instances, p.tags = instanceTags inst ∧ p.fields = instanceFields i inst := by
  obtain ⟨hlen, hat⟩ := instancesPoints_at i now pts h
  obtain ⟨k, hk, hkp⟩ := List.getElem_of_mem hp
  have hk2 : k < i.Instances.length := hlen ▸ hk
  have h1 : pts[k]? = some p := by rw [List.getElem?_eq_getElem hk, hkp]
  have h2 : i.Instances[k]? = some (i.Instances[k]) := List.getElem?_eq_getElem hk2
  obtain ⟨ht, hf, _⟩ := hat k _ p h2 h1
  exact ⟨i.Instances[k], List.getElem_mem hk2, ht, hf⟩

/-- The integer fields of the returned points, read off the instances. -/
theorem instancesPoints_intField (i : Instances) (now : Nat → Int) (pts : List Point)
    (h : i.InstancesPoints now = .ok pts) (key : String) :
    pts.map (fun p => p.intField key)
      = i.Instances.map (fun inst =>
          Point.intField { name := "", tags := instanceTags inst,
                           fields := instanceFields i inst, time := 0 } key) := by
  obtain ⟨res, hres, _, hf, _⟩ := instancesPoints_spec i now
  rw [h] at hres
  have hpr : pts = res := by injection hres
  subst hpr
  have h1 := congrArg (List.map (fun (f : GoMap FieldValue) =>
    match f key with
    | some (.int n) => n
    | _ => 0)) hf
  simpa [List.map_map, Function.comp_def, Point.intField] using h1

theorem instancesPoints_statuses (i : Instances) (now : Nat → Int) (pts : List Point)
    (h : i.InstancesPoints now = .ok pts) :
    (pts.map (fun p => p.intField "statuses")).sum
      = (i.Instances.map (fun inst => inst.Statuses)).sum := by
  rw [instancesPoints_intField i now pts h "statuses"]
  rfl

theorem instancesPoints_users (i : Instances) (now : Nat → Int) (pts : List Point)
    (h : i.InstancesPoints now = .ok pts) :
    (pts.map (fun p => p.intField "users")).sum
      = (i.Instances.map (fun inst => inst.Users)).sum := by
  rw [instancesPoints_intField i now pts h "users"]
  rfl

/-! ## The claims -/

/-- C1: for a snapshot (a Go slice has fewer than `2^63` elements) the fields
`above2`, ..., `above10000` of the point built by `TotalPoint` are
`AboveUsers(2)`, ..., `AboveUsers(10000)`, and for every threshold `t`,
`AboveUsers(t)` is the number of instances whose `Users` is strictly greater
than `t`; an instance with exactly `t` users is not among those counted. -/
theorem C1_above_fields_count (i : Instances) (now : Int)
    (hlen : i.Instances.length < 2 ^ 63) :
    ∃ pt, i.TotalPoint now = .ok pt ∧
      pt.fields "above2" = some (.int (i.AboveUsers 2)) ∧
      pt.fields "above5" = some (.int (i.AboveUsers 5)) ∧
      pt.fields "above10" = some (.int (i.AboveUsers 10)) ∧
      pt.fields "above50" = some (.int (i.AboveUsers 50)) ∧
      pt.fields "above100" = some (.int (i.AboveUsers 100)) ∧
      pt.fields "above500" = some (.int (i.AboveUsers 500)) ∧
      pt.fields "above1000" = some (.int (i.AboveUsers 1000)) ∧
      pt.fields "above5000" = some (.int (i.AboveUsers 5000)) ∧
      pt.fields "above10000" = some (.int (i.AboveUsers 10000)) ∧
      (∀ t : Int, i.AboveUsers t
        = ((i.Instances.filter (fun inst => decide (inst.Users > t))).length : Int)) ∧
      (∀ (t : Int) (inst : Instance), inst.Users = t →
        inst ∉ i.Instances.filter (fun inst => decide (inst.Users > t))) := by
  refine ⟨_, totalPoint_eq i now, rfl, rfl, rfl, rfl, rfl, rfl, rfl, rfl, rfl, ?_, ?_⟩
  · intro t
    exact aboveUsers_eq_count i t hlen
  · intro t inst ht hmem
    have := (List.mem_filter.1 hmem).2
    simp [ht] at this

/-- Witness of C1 on the scenario of the spec: one instance with 1500 users and
one with exactly 1000 give `above1000 = 1` and `above5000 = 0`. -/
theorem C1_above_fields_count_witness :
    scenarioSnapshot.Instances.length < 2 ^ 63 ∧
      ∃ pt, scenarioSnapshot.TotalPoint 0 = .ok pt ∧
        pt.fields "above1000" = some (.int 1) ∧ pt.fields "above5000" = some (.int 0) := by
  refine ⟨by decide, ?_⟩
  obtain ⟨pt, hpt, _, _, _, _, _, _, h1000, h5000, _, hcount, _⟩ :=
    C1_above_fields_count scenarioSnapshot 0 (by decide)
  refine ⟨pt, hpt, ?_, ?_⟩
  · rw [h1000, hcount 1000]
    decide
  · rw [h5000, hcount 5000]
    decide

/-- C2, as stated, fails: with two instances of `2^62` statuses each, the
`statuses` fields of the per-instance points sum to `2^63`, while the
`totalStatuses` field of the totals point is `-2^63`. -/
theorem C2_exact_sum_counterexample :
    ∃ pt pts, overflowSnapshot.TotalPoint 0 = .ok pt ∧
      overflowSnapshot.InstancesPoints (fun _ => 0) = .ok pts ∧
      (pts.map (fun p => p.intField "statuses")).sum = 2 ^ 63 ∧
      pt.fields "totalStatuses" = some (.int (-(2 ^ 63))) ∧
      pt.fields "totalStatuses"
        ≠ some (.int ((pts.map (fun p => p.intField "statuses")).sum)) := by
  refine ⟨_, _, rfl, rfl, ?_, ?_, ?_⟩
  · decide
  · decide
  · decide

/-- C2, amended: the `totalStatuses` field of the point built by `TotalPoint`
is the sum of the `statuses` fields of the points built by `InstancesPoints`
(the sum of `Statuses` over all instances) reduced to the range of Go's 64-bit
`int`; it is the exact sum whenever that sum lies in the range. -/
theorem C2_total_statuses_wrapped_sum (i : Instances) (now : Int) (nowk : Nat → Int) :
    ∃ pt pts, i.TotalPoint now = .ok pt ∧ i.InstancesPoints nowk = .ok pts ∧
      (pts.map (fun p => p.intField "statuses")).sum
        = (i.Instances.map (fun inst => inst.Statuses)).sum ∧
      pt.fields "totalStatuses"
        = some (.int (wrapInt ((pts.map (fun p => p.intField "statuses")).sum))) ∧
      (inIntRange ((pts.map (fun p => p.intField "statuses")).sum) →
        pt.fields "totalStatuses"
          = some (.int ((pts.map (fun p => p.intField "statuses")).sum))) := by
  obtain ⟨pts, hpts, _⟩ := instancesPoints_spec i nowk
  have hsum := instancesPoints_statuses i nowk pts hpts
  have hfield : (totalFields i) "totalStatuses" = some (.int (totalStatuses i)) := rfl
  refine ⟨_, pts, totalPoint_eq i now, hpts, hsum, ?_, ?_⟩
  · show (totalFields i) "totalStatuses" = _
    rw [hfield, totalStatuses_eq, hsum]
  · intro hr
    show (totalFields i) "totalStatuses" = _
    rw [hfield, totalStatuses_eq, ← hsum, wrapInt_of_inIntRange _ hr]

/-- Witness of the amended C2 on the scenario of the spec: the statuses `10`
and `4` sum to `14`, within range, and `totalStatuses` is `14`. -/
theorem C2_total_statuses_wrapped_sum_witness :
    ∃ pt pts, scenarioSnapshot.TotalPoint 0 = .ok pt ∧
      scenarioSnapshot.InstancesPoints (fun _ => 0) = .ok pts ∧
      (pts.map (fun p => p.intField "statuses")).sum = 14 ∧
      pt.fields "totalStatuses" = some (.int 14) := by
  obtain ⟨pt, pts, hpt, hpts, hsum, _, hexact⟩ :=
    C2_total_statuses_wrapped_sum scenarioSnapshot 0 (fun _ => 0)
  have h14 : (pts.map (fun p => p.intField "statuses")).sum = 14 := by
    rw [hsum]
    decide
  refine ⟨pt, pts, hpt, hpts, h14, ?_⟩
  rw [h14] at hexact
  exact hexact (by decide)

/-- C3: `InstancesPoints` returns one point per instance and, on the point of
each instance, every one of the twelve category tags is `"banned"` if its name
occurs in the instance's prohibited-content list and `"allowed"` otherwise; with
an empty prohibited-content list all twelve are `"allowed"`. -/
theorem C3_category_tag_value (i : Instances) (nowk : Nat → Int) :
    ∃ pts, i.InstancesPoints nowk = .ok pts ∧ pts.length = i.Instances.length ∧
      ∀ (k : Nat) (inst : Instance) (p : Point),
        i.Instances[k]? = some inst → pts[k]? = some p →
          (∀ c ∈ categoryTags,
            p.tags c
              = some (if c ∈ inst.Infos.ProhibitedContent then "banned" else "allowed")) ∧
          (inst.Infos.ProhibitedContent = [] → ∀ c ∈ categoryTags, p.tags c = some "allowed") := by
  obtain ⟨pts, hpts, _⟩ := instancesPoints_spec i nowk
  obtain ⟨hlen, hat⟩ := instancesPoints_at i nowk pts hpts
  refine ⟨pts, hpts, hlen, ?_⟩
  intro k inst p hi hp
  obtain ⟨ht, _, _⟩ := hat k inst p hi hp
  refine ⟨?_, ?_⟩
  · intro c hc
    rw [ht, instanceTags_category inst c hc]
  · intro hnil c hc
    rw [ht, instanceTags_category inst c hc, hnil]
    simp

/-- Witness of C3 on the scenario of the spec: the instance listing `["spam"]`
gets `spam = "banned"` and `racism = "allowed"`; the instance with an empty list
gets `spam = "allowed"`. -/
theorem C3_category_tag_value_witness :
    ∃ pts, scenarioSnapshot.InstancesPoints (fun _ => 0) = .ok pts ∧ pts.length = 2 ∧
      (∀ p, pts[0]? = some p →
        p.tags "spam" = some "banned" ∧ p.tags "racism" = some "allowed") ∧
      (∀ q, pts[1]? = some q → q.tags "spam" = some "allowed") := by
  obtain ⟨pts, hpts, hlen, hat⟩ := C3_category_tag_value scenarioSnapshot (fun _ => 0)
  refine ⟨pts, hpts, hlen, ?_, ?_⟩
  · intro p hp
    obtain ⟨h0, _⟩ := hat 0 scenarioFirst p rfl hp
    refine ⟨?_, ?_⟩
    · rw [h0 "spam" (by decide)]
      decide
    · rw [h0 "racism" (by decide)]
      decide
  · intro q hq
    obtain ⟨_, h1⟩ := hat 1 scenarioSecond q rfl hq
    exact h1 rfl "spam" (by decide)

/-- C4, evaluated at the failing input: the entry `"id"` is not one of the
twelve category names, yet for a record whose `_id` is `"allowed"` it is not
dropped: the `id` tag of the point is `"banned"`, while the same record with the
entry removed gets the `id` tag `"allowed"`. -/
theorem C4_unrecognized_entry_overwrites_tag :
    "id" ∉ categoryTags ∧
      ∃ p q,
        Instances.InstancesPoints { Instances := [shadowInstance], TotalUsers := 0 } (fun _ => 0)
          = .ok [p] ∧
        Instances.InstancesPoints { Instances := [shadowInstanceDropped], TotalUsers := 0 }
            (fun _ => 0)
          = .ok [q] ∧
        p.tags "id" = some "banned" ∧ q.tags "id" = some "allowed" ∧ p.tags ≠ q.tags := by
  refine ⟨by decide, _, _, rfl, rfl, by decide, by decide, ?_⟩
  intro h
  have h2 := congrFun h "id"
  revert h2
  decide

/-- An entry of the prohibited-content list is dropped whenever the map literal
does not hold `"allowed"` under that key: the tags are those of the record with
the entry removed. -/
theorem instanceTags_drop_entry (inst : Instance) (l₁ l₂ : List String) (e : String)
    (hpc : inst.Infos.ProhibitedContent = l₁ ++ e :: l₂)
    (he : initialTags inst e ≠ some "allowed") :
    instanceTags inst
      = (l₁ ++ l₂).foldl banStep (initialTags inst) := by
  funext k
  unfold instanceTags
  rw [hpc, foldl_banStep, foldl_banStep]
  by_cases hk : k = e
  · subst hk
    simp [he]
  · simp [hk]

/-- C5: on every point built by `InstancesPoints`, each of the twelve category
tags is present, with value `"allowed"` or `"banned"`. -/
theorem C5_category_tags_two_valued (i : Instances) (nowk : Nat → Int) :
    ∃ pts, i.InstancesPoints nowk = .ok pts ∧
      ∀ p ∈ pts, ∀ c ∈ categoryTags,
        p.tags c = some "allowed" ∨ p.tags c = some "banned" := by
  obtain ⟨pts, hpts, _⟩ := instancesPoints_spec i nowk
  refine ⟨pts, hpts, ?_⟩
  intro p hp c hc
  obtain ⟨inst, _, ht, _⟩ := instancesPoints_mem i nowk pts hpts p hp
  rw [ht, instanceTags_category inst c hc]
  by_cases h : c ∈ inst.Infos.ProhibitedContent <;> simp [h]

/-- C6, evaluated at the failing input: for the record whose `_id` is
`"allowed"` and whose prohibited-content list is `["id"]`, the one point
returned by `InstancesPoints` carries the `id` tag `"banned"`, not the `_id` of
the instance. -/
theorem C6_id_tag_not_of_instance :
    shadowInstance.ID = "allowed" ∧
      ∃ p,
        Instances.InstancesPoints { Instances := [shadowInstance], TotalUsers := 0 } (fun _ => 0)
          = .ok [p] ∧
        p.tags "id" = some "banned" ∧ p.tags "id" ≠ some shadowInstance.ID := by
  refine ⟨rfl, _, rfl, by decide, by decide⟩

/-- What `InstancesPoints` does guarantee about order: one point per instance,
the `k`-th point carrying the `users` and `statuses` fields of the `k`-th
instance, and its `id` (`name`) tag unless that member is the string
`"allowed"` and the prohibited-content list names the key `"id"` (`"name"`). -/
theorem instancesPoints_order (i : Instances) (nowk : Nat → Int) :
    ∃ pts, i.InstancesPoints nowk = .ok pts ∧ pts.length = i.Instances.length ∧
      ∀ (k : Nat) (inst : Instance) (p : Point),
        i.Instances[k]? = some inst → pts[k]? = some p →
          p.fields "users" = some (.int inst.Users) ∧
          p.fields "statuses" = some (.int inst.Statuses) ∧
          (¬ (inst.ID = "allowed" ∧ "id" ∈ inst.Infos.ProhibitedContent) →
            p.tags "id" = some inst.ID) ∧
          (¬ (inst.Name = "allowed" ∧ "name" ∈ inst.Infos.ProhibitedContent) →
            p.tags "name" = some inst.Name) := by
  obtain ⟨pts, hpts, _⟩ := instancesPoints_spec i nowk
  obtain ⟨hlen, hat⟩ := instancesPoints_at i nowk pts hpts
  refine ⟨pts, hpts, hlen, ?_⟩
  intro k inst p hi hp
  obtain ⟨ht, hf, _⟩ := hat k inst p hi hp
  have hid : initialTags inst "id" = some inst.ID := rfl
  have hname : initialTags inst "name" = some inst.Name := rfl
  refine ⟨by rw [hf]; rfl, by rw [hf]; rfl, ?_, ?_⟩
  · intro h
    rw [ht]
    unfold instanceTags
    rw [foldl_banStep, hid]
    have : ¬ ("id" ∈ inst.Infos.ProhibitedContent ∧ some inst.ID = some "allowed") := by
      rintro ⟨h1, h2⟩
      exact h ⟨Option.some.inj h2, h1⟩
    rw [if_neg this]
  · intro h
    rw [ht]
    unfold instanceTags
    rw [foldl_banStep, hname]
    have : ¬ ("name" ∈ inst.Infos.ProhibitedContent ∧ some inst.Name = some "allowed") := by
      rintro ⟨h1, h2⟩
      exact h ⟨Option.some.inj h2, h1⟩
    rw [if_neg this]

/-- C7, as stated, fails: for a document with `totalUsers = 0` whose one
instance has one user, the `totalUsers` field of the totals point is `0` while
the `users` fields of the per-instance points sum to `1`. -/
theorem C7_total_users_counterexample :
    ∃ pt pts, mismatchSnapshot.TotalPoint 0 = .ok pt ∧
      mismatchSnapshot.InstancesPoints (fun _ => 0) = .ok pts ∧
      pt.fields "totalUsers" = some (.int 0) ∧
      (pts.map (fun p => p.intField "users")).sum = 1 ∧
      pt.fields "totalUsers" ≠ some (.int ((pts.map (fun p => p.intField "users")).sum)) := by
  refine ⟨_, _, rfl, rfl, ?_, ?_, ?_⟩
  · decide
  · decide
  · decide

/-- C7, amended: the `totalUsers` field of the point built by `TotalPoint` is
the snapshot's `TotalUsers` member, copied; it equals the sum of the `users`
fields of the points built by `InstancesPoints` exactly when the snapshot's
`TotalUsers` equals the sum of `Users` over its instances. -/
theorem C7_total_users_copied (i : Instances) (now : Int) (nowk : Nat → Int) :
    ∃ pt pts, i.TotalPoint now = .ok pt ∧ i.InstancesPoints nowk = .ok pts ∧
      pt.fields "totalUsers" = some (.int i.TotalUsers) ∧
      (pt.fields "totalUsers" = some (.int ((pts.map (fun p => p.intField "users")).sum))
        ↔ i.TotalUsers = (i.Instances.map (fun inst => inst.Users)).sum) := by
  obtain ⟨pts, hpts, _⟩ := instancesPoints_spec i nowk
  have hsum := instancesPoints_users i nowk pts hpts
  have hfield : (totalFields i) "totalUsers" = some (.int i.TotalUsers) := rfl
  refine ⟨_, pts, totalPoint_eq i now, hpts, hfield, ?_⟩
  show (totalFields i) "totalUsers" = _ ↔ _
  rw [hfield, hsum]
  constructor
  · intro h
    injection h with h
    injection h
  · intro h
    rw [h]

/-- Witness of the amended C7 on the scenario of the spec, whose `TotalUsers`
member `2500` is the sum `1500 + 1000`: there `totalUsers` is the sum of the
`users` fields. -/
theorem C7_total_users_copied_witness :
    ∃ pt pts, scenarioSnapshot.TotalPoint 0 = .ok pt ∧
      scenarioSnapshot.InstancesPoints (fun _ => 0) = .ok pts ∧
      pt.fields "totalUsers" = some (.int 2500) ∧
      pt.fields "totalUsers" = some (.int ((pts.map (fun p => p.intField "users")).sum)) := by
  obtain ⟨pt, pts, hpt, hpts, hcopy, hiff⟩ :=
    C7_total_users_copied scenarioSnapshot 0 (fun _ => 0)
  exact ⟨pt, pts, hpt, hpts, hcopy, hiff.2 (by decide)⟩

/-- C8: the `totalInstances` field of the point built by `TotalPoint` is the
number of points returned by `InstancesPoints` for the same snapshot, which is
the number of instances of the snapshot. -/
theorem C8_total_instances_is_point_count (i : Instances) (now : Int) (nowk : Nat → Int) :
    ∃ pt pts, i.TotalPoint now = .ok pt ∧ i.InstancesPoints nowk = .ok pts ∧
      pt.fields "totalInstances" = some (.int pts.length) ∧
      pts.length = i.Instances.length := by
  obtain ⟨pts, hpts, _⟩ := instancesPoints_spec i nowk
  obtain ⟨hlen, _⟩ := instancesPoints_at i nowk pts hpts
  refine ⟨_, pts, totalPoint_eq i now, hpts, ?_, hlen⟩
  rw [hlen]
  rfl

/-- C9: on every point built by `InstancesPoints` the fields `totalUsers` and
`totalInstances` are the snapshot's `TotalUsers` and its number of instances;
they equal the `totalUsers` and `totalInstances` fields of the point built by
`TotalPoint`, and are the same on any two instance points. -/
theorem C9_instance_points_repeat_totals (i : Instances) (now : Int) (nowk : Nat → Int) :
    ∃ pt pts, i.TotalPoint now = .ok pt ∧ i.InstancesPoints nowk = .ok pts ∧
      (∀ p ∈ pts,
        p.fields "totalUsers" = some (.int i.TotalUsers) ∧
        p.fields "totalInstances" = some (.int i.Instances.length) ∧
        p.fields "totalUsers" = pt.fields "totalUsers" ∧
        p.fields "totalInstances" = pt.fields "totalInstances") ∧
      (∀ p ∈ pts, ∀ q ∈ pts,
        p.fields "totalUsers" = q.fields "totalUsers" ∧
        p.fields "totalInstances" = q.fields "totalInstances") := by
  obtain ⟨pts, hpts, _⟩ := instancesPoints_spec i nowk
  have key : ∀ p ∈ pts, p.fields "totalUsers" = some (.int i.TotalUsers) ∧
      p.fields "totalInstances" = some (.int i.Instances.length) := by
    intro p hp
    obtain ⟨inst, _, _, hf⟩ := instancesPoints_mem i nowk pts hpts p hp
    rw [hf]
    exact ⟨rfl, rfl⟩
  refine ⟨_, pts, totalPoint_eq i now, hpts, ?_, ?_⟩
  · intro p hp
    exact ⟨(key p hp).1, (key p hp).2, (key p hp).1, (key p hp).2⟩
  · intro p hp q hq
    exact ⟨(key p hp).1.trans (key q hq).1.symm, (key p hp).2.trans (key q hq).2.symm⟩

/-- C10: for a snapshot with no instances, whatever its `TotalUsers`,
`TotalPoint` produces a point whose nine `above` fields, `totalInstances` and
`totalStatuses` are all `0` (and whose `totalUsers` is the snapshot's), and
`InstancesPoints` returns the empty list. -/
theorem C10_empty_snapshot (i : Instances) (now : Int) (nowk : Nat → Int)
    (hempty : i.Instances = []) :
    (∃ pt, i.TotalPoint now = .ok pt ∧ pt.name = "totals" ∧
      pt.fields "above2" = some (.int 0) ∧
      pt.fields "above5" = some (.int 0) ∧
      pt.fields "above10" = some (.int 0) ∧
      pt.fields "above50" = some (.int 0) ∧
      pt.fields "above100" = some (.int 0) ∧
      pt.fields "above500" = some (.int 0) ∧
      pt.fields "above1000" = some (.int 0) ∧
      pt.fields "above5000" = some (.int 0) ∧
      pt.fields "above10000" = some (.int 0) ∧
      pt.fields "totalInstances" = some (.int 0) ∧
      pt.fields "totalStatuses" = some (.int 0) ∧
      pt.fields "totalUsers" = some (.int i.TotalUsers)) ∧
    i.InstancesPoints nowk = .ok [] := by
  have ha : ∀ t : Int, i.AboveUsers t = 0 := by
    intro t
    simp [Instances.AboveUsers, hempty]
  have hs : totalStatuses i = 0 := by simp [totalStatuses, hempty]
  have hl : ((i.Instances.length : Nat) : Int) = 0 := by simp [hempty]
  refine ⟨⟨_, totalPoint_eq i now, rfl, ?_, ?_, ?_, ?_, ?_, ?_, ?_, ?_, ?_, ?_, ?_, rfl⟩, ?_⟩
  · show some (FieldValue.int (i.AboveUsers 2)) = _
    rw [ha]
  · show some (FieldValue.int (i.AboveUsers 5)) = _
    rw [ha]
  · show some (FieldValue.int (i.AboveUsers 10)) = _
    rw [ha]
  · show some (FieldValue.int (i.AboveUsers 50)) = _
    rw [ha]
  · show some (FieldValue.int (i.AboveUsers 100)) = _
    rw [ha]
  · show some (FieldValue.int (i.AboveUsers 500)) = _
    rw [ha]
  · show some (FieldValue.int (i.AboveUsers 1000)) = _
    rw [ha]
  · show some (FieldValue.int (i.AboveUsers 5000)) = _
    rw [ha]
  · show some (FieldValue.int (i.AboveUsers 10000)) = _
    rw [ha]
  · show some (FieldValue.int (i.Instances.length : Int)) = _
    rw [hl]
  · show some (FieldValue.int (totalStatuses i)) = _
    rw [hs]
  · simp [Instances.InstancesPoints, hempty, InstancesPoints.loop]

/-- Witness of C10: the empty snapshot with `TotalUsers = 42`. -/
theorem C10_empty_snapshot_witness :
    emptySnapshot.Instances = [] ∧
      (∃ pt, emptySnapshot.TotalPoint 0 = .ok pt ∧
        pt.fields "above2" = some (.int 0) ∧ pt.fields "above10000" = some (.int 0) ∧
        pt.fields "totalInstances" = some (.int 0) ∧
        pt.fields "totalUsers" = some (.int 42)) ∧
      emptySnapshot.InstancesPoints (fun _ => 0) = .ok [] := by
  obtain ⟨⟨pt, hpt, _, h2, _, _, _, _, _, _, _, h10000, hti, _, htu⟩, hpts⟩ :=
    C10_empty_snapshot emptySnapshot 0 (fun _ => 0) rfl
  exact ⟨rfl, ⟨pt, hpt, h2, h10000, hti, htu⟩, hpts⟩

/-! ## Lemmas for the cumulative buckets and the order of instances -/

/-- Raising the threshold cannot raise the number of instances above it. -/
theorem filter_users_length_antitone (l : List Instance) (a b : Int) (hab : a ≤ b) :
    (l.filter (fun inst => decide (inst.Users > b))).length
      ≤ (l.filter (fun inst => decide (inst.Users > a))).length := by
  induction l with
  | nil => simp
  | cons inst rest ih =>
    by_cases hb : inst.Users > b
    · have ha : inst.Users > a := by omega
      simp [List.filter_cons, ha, hb, ih]
    · by_cases ha : inst.Users > a
      · rw [List.filter_cons_of_neg (by simpa using hb),
          List.filter_cons_of_pos (by simpa using ha), List.length_cons]
        omega
      · simp [List.filter_cons, ha, hb, ih]

/-- The counting loop started at a wrapped value: the wrapped count. -/
theorem aboveLoop_wrapped (count : Int) (l : List Instance) (a : Int) :
    l.foldl (fun c inst => if inst.Users > count then wrapInt (c + 1) else c) (wrapInt a)
      = wrapInt (a + ((l.filter (fun inst => decide (inst.Users > count))).length : Int)) := by
  induction l generalizing a with
  | nil => simp
  | cons inst rest ih =>
    simp only [List.foldl_cons]
    by_cases hu : inst.Users > count
    · rw [if_pos hu, wrapInt_add_wrapInt, ih (a + 1)]
      simp [List.filter_cons, hu]
      congr 1
      omega
    · rw [if_neg hu, ih a]
      simp [List.filter_cons, hu]

theorem aboveUsers_eq_wrapped_count (i : Instances) (count : Int) :
    i.AboveUsers count
      = wrapInt ((i.Instances.filter (fun inst => decide (inst.Users > count))).length : Int) := by
  have h := aboveLoop_wrapped count i.Instances 0
  have h0 : wrapInt 0 = 0 := by decide
  rw [h0, zero_add] at h
  exact h

/-- The fields of the totals point depend on the instances only up to their
order. -/
theorem totalFields_perm (s : Instances) (l : List Instance) (hperm : l.Perm s.Instances) :
    totalFields { s with Instances := l } = totalFields s := by
  have hA : ∀ t : Int, Instances.AboveUsers { s with Instances := l } t = s.AboveUsers t := by
    intro t
    rw [aboveUsers_eq_wrapped_count, aboveUsers_eq_wrapped_count]
    have := (hperm.filter (fun inst => decide (inst.Users > t))).length_eq
    simp only [this]
  have hS : totalStatuses { s with Instances := l } = totalStatuses s := by
    rw [totalStatuses_eq, totalStatuses_eq]
    have := (hperm.map (fun inst => inst.Statuses)).sum_eq
    simp only [this]
  have hL : l.length = s.Instances.length := hperm.length_eq
  simp only [totalFields, hA, hS, hL]

/-- C11: for a snapshot (a Go slice has fewer than `2^63` elements) and all
integers `a ≤ b`, `AboveUsers(b) ≤ AboveUsers(a)`; on the totals point
`above2 ≥ above5 ≥ above10 ≥ above50 ≥ above100 ≥ above500 ≥ above1000 ≥
above5000 ≥ above10000`; and an instance with more than 10000 users is among
those counted for each of the nine thresholds, so each count is at least 1. -/
theorem C11_buckets_cumulative (i : Instances) (now : Int)
    (hlen : i.Instances.length < 2 ^ 63) :
    (∀ a b : Int, a ≤ b → i.AboveUsers b ≤ i.AboveUsers a) ∧
    (∃ pt, i.TotalPoint now = .ok pt ∧
      pt.intField "above2" ≥ pt.intField "above5" ∧
      pt.intField "above5" ≥ pt.intField "above10" ∧
      pt.intField "above10" ≥ pt.intField "above50" ∧
      pt.intField "above50" ≥ pt.intField "above100" ∧
      pt.intField "above100" ≥ pt.intField "above500" ∧
      pt.intField "above500" ≥ pt.intField "above1000" ∧
      pt.intField "above1000" ≥ pt.intField "above5000" ∧
      pt.intField "above5000" ≥ pt.intField "above10000") ∧
    (∀ inst ∈ i.Instances, inst.Users > 10000 → ∀ t ∈ thresholds,
      inst ∈ i.Instances.filter (fun inst => decide (inst.Users > t)) ∧
      1 ≤ i.AboveUsers t) := by
  have hmono : ∀ a b : Int, a ≤ b → i.AboveUsers b ≤ i.AboveUsers a := by
    intro a b hab
    rw [aboveUsers_eq_count i a hlen, aboveUsers_eq_count i b hlen]
    exact_mod_cast filter_users_length_antitone i.Instances a b hab
  refine ⟨hmono, ⟨_, totalPoint_eq i now, ?_, ?_, ?_, ?_, ?_, ?_, ?_, ?_⟩, ?_⟩
  · exact hmono 2 5 (by decide)
  · exact hmono 5 10 (by decide)
  · exact hmono 10 50 (by decide)
  · exact hmono 50 100 (by decide)
  · exact hmono 100 500 (by decide)
  · exact hmono 500 1000 (by decide)
  · exact hmono 1000 5000 (by decide)
  · exact hmono 5000 10000 (by decide)
  · intro inst hmem hu t ht
    have ht2 : t ≤ 10000 := by
      simp only [thresholds, List.mem_cons, List.mem_singleton, List.not_mem_nil,
        or_false] at ht
      omega
    have hin : inst ∈ i.Instances.filter (fun inst => decide (inst.Users > t)) := by
      rw [List.mem_filter]
      exact ⟨hmem, by simp; omega⟩
    refine ⟨hin, ?_⟩
    rw [aboveUsers_eq_count i t hlen]
    have := List.length_pos_of_mem hin
    omega

/-- Witness of C11 on the scenario of the spec: `AboveUsers(5000) ≤
AboveUsers(1000)`, and on the totals point `above1000 ≥ above5000`. -/
theorem C11_buckets_cumulative_witness :
    scenarioSnapshot.Instances.length < 2 ^ 63 ∧
      scenarioSnapshot.AboveUsers 5000 ≤ scenarioSnapshot.AboveUsers 1000 ∧
      ∃ pt, scenarioSnapshot.TotalPoint 0 = .ok pt ∧
        pt.intField "above1000" ≥ pt.intField "above5000" := by
  obtain ⟨hmono, ⟨pt, hpt, _, _, _, _, _, _, h, _⟩, _⟩ :=
    C11_buckets_cumulative scenarioSnapshot 0 (by decide)
  exact ⟨by decide, hmono 1000 5000 (by decide), pt, hpt, h⟩

/-! ## Lemmas on replacing a prohibited-content list -/

theorem replaceProhibitedContent_length (s : Instances) (a : Nat) (l : List String) :
    (replaceProhibitedContent s a l).Instances.length = s.Instances.length := by
  unfold replaceProhibitedContent
  cases h : s.Instances[a]? with
  | none => rfl
  | some inst => simp

theorem replaceProhibitedContent_other (s : Instances) (a b : Nat) (l : List String)
    (hne : b ≠ a) :
    (replaceProhibitedContent s a l).Instances[b]? = s.Instances[b]? := by
  unfold replaceProhibitedContent
  cases h : s.Instances[a]? with
  | none => rfl
  | some inst =>
    simp only []
    rw [List.getElem?_set_ne (Ne.symm hne)]

theorem replaceProhibitedContent_at (s : Instances) (a : Nat) (l : List String)
    (inst : Instance) (h : s.Instances[a]? = some inst) :
    (replaceProhibitedContent s a l).Instances[a]? = some (withProhibitedContent inst l) := by
  unfold replaceProhibitedContent
  rw [h]
  simp only []
  have hlt : a < s.Instances.length := by
    by_contra hge
    rw [List.getElem?_eq_none (by omega)] at h
    exact Option.noConfusion h
  rw [List.getElem?_set_self hlt]

/-- C12: replacing the prohibited-content list of the instance at index `a` by
any list `l` leaves the number of points unchanged and, for every other index
`b`, leaves all tags of the point built for instance `b` unchanged. -/
theorem C12_ban_is_local (s : Instances) (a : Nat) (l : List String)
    (nowk nowk' : Nat → Int) :
    ∃ pts pts', s.InstancesPoints nowk = .ok pts ∧
      (replaceProhibitedContent s a l).InstancesPoints nowk' = .ok pts' ∧
      pts'.length = pts.length ∧
      ∀ (b : Nat) (p p' : Point), b ≠ a → pts[b]? = some p → pts'[b]? = some p' →
        p'.tags = p.tags := by
  obtain ⟨pts, hpts, _⟩ := instancesPoints_spec s nowk
  obtain ⟨pts', hpts', _⟩ := instancesPoints_spec (replaceProhibitedContent s a l) nowk'
  obtain ⟨hlen, hat⟩ := instancesPoints_at s nowk pts hpts
  obtain ⟨hlen', hat'⟩ := instancesPoints_at _ nowk' pts' hpts'
  refine ⟨pts, pts', hpts, hpts', ?_, ?_⟩
  · rw [hlen', hlen, replaceProhibitedContent_length]
  · intro b p p' hne hp hp'
    have hb : b < s.Instances.length := by
      by_contra hge
      rw [List.getElem?_eq_none (by omega)] at hp
      exact Option.noConfusion hp
    have hi : s.Instances[b]? = some (s.Instances[b]) := List.getElem?_eq_getElem hb
    have hi' : (replaceProhibitedContent s a l).Instances[b]? = some (s.Instances[b]) := by
      rw [replaceProhibitedContent_other s a b l hne, hi]
    rw [(hat' b _ p' hi' hp').1, (hat b _ p hi hp).1]

/-- Witness of C12 on the scenario of the spec: giving the first instance the
list `["racism", "spam", "id"]` leaves the second point with `racism` and
`spam` both `"allowed"`. -/
theorem C12_ban_is_local_witness :
    ∃ pts', (replaceProhibitedContent scenarioSnapshot 0 ["racism", "spam", "id"]).InstancesPoints
        (fun _ => 0) = .ok pts' ∧ pts'.length = 2 ∧
      ∀ p', pts'[1]? = some p' →
        p'.tags "racism" = some "allowed" ∧ p'.tags "spam" = some "allowed" := by
  obtain ⟨pts, pts', hpts, hpts', hlen, hsame⟩ :=
    C12_ban_is_local scenarioSnapshot 0 ["racism", "spam", "id"] (fun _ => 0) (fun _ => 0)
  have hp : pts = [{ name := "instances", tags := instanceTags scenarioFirst,
                     fields := instanceFields scenarioSnapshot scenarioFirst, time := 0 },
                   { name := "instances", tags := instanceTags scenarioSecond,
                     fields := instanceFields scenarioSnapshot scenarioSecond, time := 0 }] := by
    have h2 : scenarioSnapshot.InstancesPoints (fun _ => 0) = .ok _ := rfl
    rw [hpts] at h2
    injection h2
  subst hp
  refine ⟨pts', hpts', hlen, ?_⟩
  intro p' hp'
  have ht := hsame 1 _ p' (by decide) rfl hp'
  rw [ht]
  exact ⟨by decide, by decide⟩

/-- C13: on the point of every instance the tag `otherProhibitedContent` is
`"yes"` if the instance's `OtherProhibitedContent` list is non-empty and `"no"`
otherwise; no other value occurs. -/
theorem C13_other_prohibited_content_tag (i : Instances) (nowk : Nat → Int) :
    ∃ pts, i.InstancesPoints nowk = .ok pts ∧ pts.length = i.Instances.length ∧
      ∀ (k : Nat) (inst : Instance) (p : Point),
        i.Instances[k]? = some inst → pts[k]? = some p →
          p.tags "otherProhibitedContent"
            = some (if inst.Infos.OtherProhibitedContent ≠ [] then "yes" else "no") ∧
          (p.tags "otherProhibitedContent" = some "yes" ∨
            p.tags "otherProhibitedContent" = some "no") := by
  obtain ⟨pts, hpts, _⟩ := instancesPoints_spec i nowk
  obtain ⟨hlen, hat⟩ := instancesPoints_at i nowk pts hpts
  refine ⟨pts, hpts, hlen, ?_⟩
  intro k inst p hi hp
  obtain ⟨ht, _, _⟩ := hat k inst p hi hp
  have hinit : initialTags inst "otherProhibitedContent"
      = some (if inst.Infos.OtherProhibitedContent.length > 0 then "yes" else "no") := rfl
  have hval : p.tags "otherProhibitedContent"
      = some (if inst.Infos.OtherProhibitedContent.length > 0 then "yes" else "no") := by
    rw [ht]
    unfold instanceTags
    rw [foldl_banStep, hinit]
    by_cases h : inst.Infos.OtherProhibitedContent.length > 0 <;> simp [h]
  cases hl : inst.Infos.OtherProhibitedContent with
  | nil =>
    rw [hl] at hval
    exact ⟨by rw [hval]; simp, Or.inr (by rw [hval]; simp)⟩
  | cons x xs =>
    rw [hl] at hval
    exact ⟨by rw [hval]; simp, Or.inl (by rw [hval]; simp)⟩

/-! ## The mapper on the memory of the snapshot: lemmas -/

/-- A loop whose body leaves the memory as it is and updates the locals by `f`
leaves the memory as it is, and folds `f` over the elements from index `k`. -/
theorem rangeInstances_pure {σ : Type}
    (body : Instance → Instances × σ → Except String (Instances × σ)) (f : σ → Instance → σ)
    (hbody : ∀ (inst : Instance) (mem : Instances) (x : σ), body inst (mem, x) = .ok (mem, f x inst))
    (n k : Nat) (mem : Instances) (x : σ) (hk : k + n = mem.Instances.length) :
    rangeInstances body n k (mem, x) = .ok (mem, (mem.Instances.drop k).foldl f x) := by
  induction n generalizing k x with
  | zero =>
    have hdrop : mem.Instances.drop k = [] := List.drop_eq_nil_of_le (by omega)
    simp [rangeInstances, hdrop]
  | succ n ih =>
    have hlt : k < mem.Instances.length := by omega
    have hget : mem.Instances[k]? = some (mem.Instances[k]) := List.getElem?_eq_getElem hlt
    have hdrop : mem.Instances.drop k = mem.Instances[k] :: mem.Instances.drop (k + 1) :=
      List.drop_eq_getElem_cons hlt
    unfold rangeInstances
    simp only [hget, hbody]
    rw [ih (k + 1) (f x mem.Instances[k]) (by omega), hdrop, List.foldl_cons]

/-- `AboveUsers` leaves the memory of the snapshot as it is. -/
theorem runAboveUsers_eq (count : Int) (mem : Instances) :
    runAboveUsers count mem = .ok (mem, mem.AboveUsers count) := by
  unfold runAboveUsers
  rw [rangeInstances_pure _ (fun c inst => if inst.Users > count then wrapInt (c + 1) else c)
    (by intro inst mem x; rfl) _ 0 mem 0 (by omega)]
  rfl

/-- `TotalPoint` leaves the memory of the snapshot as it is and returns the
point of the function `TotalPoint`. -/
theorem runTotalPoint_eq (now : Int) (mem : Instances) :
    runTotalPoint now mem
      = .ok (mem, { name := "totals", tags := totalTags, fields := totalFields mem,
                    time := now }) := by
  have hst : rangeInstances (fun inst (st : Instances × Int) =>
        .ok (st.1, wrapInt (st.2 + inst.Statuses))) mem.Instances.length 0 (mem, (0 : Int))
      = .ok (mem, totalStatuses mem) := by
    rw [rangeInstances_pure _ (fun statuses inst => wrapInt (statuses + inst.Statuses))
      (by intro inst mem x; rfl) _ 0 mem 0 (by omega)]
    rfl
  unfold runTotalPoint
  simp only [hst, runAboveUsers_eq, bind, Except.bind]
  rfl

/-- The loop of `InstancesPoints` as a fold of its body. -/
theorem loop_eq_foldl (i : Instances) (now : Nat → Int) (l : List Instance) (pts : List Point) :
    InstancesPoints.loop i now l pts
      = .ok (l.foldl (fun pts inst =>
          pts ++ [{ name := "instances", tags := instanceTags inst,
                    fields := instanceFields i inst, time := now pts.length }]) pts) := by
  induction l generalizing pts with
  | nil => rfl
  | cons inst rest ih =>
    rw [List.foldl_cons, ← ih]
    rfl

/-- `InstancesPoints` leaves the memory of the snapshot as it is and returns
the slice of the function `InstancesPoints`. -/
theorem runInstancesPoints_eq (nowk : Nat → Int) (mem : Instances) :
    ∃ pts, mem.InstancesPoints nowk = .ok pts ∧ runInstancesPoints nowk mem = .ok (mem, pts) := by
  refine ⟨_, loop_eq_foldl mem nowk mem.Instances [], ?_⟩
  unfold runInstancesPoints
  simp only []
  rw [rangeInstances_pure _ (fun pts inst =>
      pts ++ [{ name := "instances", tags := instanceTags inst,
                fields := instanceFields mem inst, time := nowk pts.length }])
    (by intro inst m x; rfl) _ 0 mem [] (by omega)]
  rfl

/-- The two mapper calls of `doStuff` leave the memory of the snapshot as it is
and return the points of the functions `TotalPoint` and `InstancesPoints`. -/
theorem runMapper_eq (now : Int) (nowk : Nat → Int) (mem : Instances) :
    ∃ pt pts, mem.TotalPoint now = .ok pt ∧ mem.InstancesPoints nowk = .ok pts ∧
      runMapper now nowk mem = .ok (mem, pt, pts) := by
  obtain ⟨pts, hpts, hrun⟩ := runInstancesPoints_eq nowk mem
  refine ⟨_, pts, totalPoint_eq mem now, hpts, ?_⟩
  unfold runMapper
  simp only [runTotalPoint_eq, hrun, bind, Except.bind]
  rfl

/-- C14: the mapper run twice in a row on the memory of a snapshot, whatever
the clock shows in each run. Each run returns and leaves the snapshot as it
found it, so the second run works on the same snapshot. Each run returns the
totals point of the snapshot and one instance point per instance, in order,
with the tags and fields of that instance; hence the two runs agree position by
position on measurement name, tags and fields, and two corresponding points can
differ in their time stamp only. -/
theorem C14_two_runs_agree_snapshot_unchanged (s : Instances) (now now' : Int)
    (nowk nowk' : Nat → Int) :
    ∃ mem₁ pt pts mem₂ pt' pts',
      runMapper now nowk s = .ok (mem₁, pt, pts) ∧ mem₁ = s ∧
      runMapper now' nowk' mem₁ = .ok (mem₂, pt', pts') ∧ mem₂ = s ∧
      s.TotalPoint now = .ok pt ∧ s.InstancesPoints nowk = .ok pts ∧
      s.TotalPoint now' = .ok pt' ∧ s.InstancesPoints nowk' = .ok pts' ∧
      pt.name = "totals" ∧ pt.tags = totalTags ∧ pt.fields = totalFields s ∧
      pt'.name = pt.name ∧ pt'.tags = pt.tags ∧ pt'.fields = pt.fields ∧
      (pt'.time = pt.time → pt' = pt) ∧
      pts.length = s.Instances.length ∧ pts'.length = s.Instances.length ∧
      ∀ (k : Nat) (inst : Instance), s.Instances[k]? = some inst →
        ∃ p p', pts[k]? = some p ∧ pts'[k]? = some p' ∧
          p.name = "instances" ∧ p.tags = instanceTags inst ∧
          p.fields = instanceFields s inst ∧
          p'.name = p.name ∧ p'.tags = p.tags ∧ p'.fields = p.fields ∧
          (p'.time = p.time → p' = p) := by
  obtain ⟨pt, pts, hpt, hpts, hrun⟩ := runMapper_eq now nowk s
  obtain ⟨pt', pts', hpt', hpts', hrun'⟩ := runMapper_eq now' nowk' s
  obtain ⟨hlen, hat⟩ := instancesPoints_at s nowk pts hpts
  obtain ⟨hlen', hat'⟩ := instancesPoints_at s nowk' pts' hpts'
  have e : pt = { name := "totals", tags := totalTags, fields := totalFields s, time := now } := by
    rw [totalPoint_eq] at hpt
    injection hpt with h
    exact h.symm
  have e' : pt' = { name := "totals", tags := totalTags, fields := totalFields s,
                    time := now' } := by
    rw [totalPoint_eq] at hpt'
    injection hpt' with h
    exact h.symm
  refine ⟨s, pt, pts, s, pt', pts', hrun, rfl, hrun', rfl, hpt, hpts, hpt', hpts',
    by rw [e], by rw [e], by rw [e], by rw [e, e'], by rw [e, e'], by rw [e, e'], ?_,
    hlen, hlen', ?_⟩
  · intro ht
    rw [e, e'] at ht ⊢
    simp only at ht
    rw [ht]
  · intro k inst hi
    have hk : k < s.Instances.length := by
      by_contra hge
      rw [List.getElem?_eq_none (by omega)] at hi
      exact Option.noConfusion hi
    have hp : pts[k]? = some (pts[k]) := List.getElem?_eq_getElem (by omega)
    have hp' : pts'[k]? = some (pts'[k]) := List.getElem?_eq_getElem (by omega)
    obtain ⟨h1, h2, h3⟩ := hat k inst _ hi hp
    obtain ⟨h1', h2', h3'⟩ := hat' k inst _ hi hp'
    have hn : (pts'[k]).name = (pts[k]).name := by rw [h3', h3]
    have htg : (pts'[k]).tags = (pts[k]).tags := by rw [h1', h1]
    have hf : (pts'[k]).fields = (pts[k]).fields := by rw [h2', h2]
    refine ⟨_, _, hp, hp', h3, h1, h2, hn, htg, hf, ?_⟩
    intro htime
    generalize pts[k] = p at hn htg hf htime ⊢
    generalize pts'[k] = p' at hn htg hf htime ⊢
    cases p
    cases p'
    simp only [Point.mk.injEq]
    exact ⟨hn, htg, hf, htime⟩

/-- Witness of C14 on the scenario of the spec: a run leaves the snapshot as it
is and returns the totals point with `totalInstances = 2` and two instance
points, the first with `spam = "banned"`. -/
theorem C14_two_runs_agree_snapshot_unchanged_witness :
    ∃ pt pts, runMapper 0 (fun _ => 0) scenarioSnapshot = .ok (scenarioSnapshot, pt, pts) ∧
      runMapper 7 (fun k => 7 + k) scenarioSnapshot
        = .ok (scenarioSnapshot, { pt with time := 7 },
            pts.enum.map (fun kp => { kp.2 with time := 7 + kp.1 })) ∧
      pt.fields "totalInstances" = some (.int 2) ∧ pts.length = 2 ∧
      ∃ p, pts[0]? = some p ∧ p.tags "spam" = some "banned" := by
  obtain ⟨mem₁, pt, pts, mem₂, pt', pts', hrun, hm, _, _, _, _, _, _, _, _, hf, _, _, _, _,
      hlen, _, hat⟩ :=
    C14_two_runs_agree_snapshot_unchanged scenarioSnapshot 0 7 (fun _ => 0) (fun k => 7 + k)
  subst hm
  have hr : runMapper 0 (fun _ => 0) scenarioSnapshot = .ok (scenarioSnapshot,
      ({ name := "totals", tags := totalTags, fields := totalFields scenarioSnapshot,
         time := 0 } : Point),
      [({ name := "instances", tags := instanceTags scenarioFirst,
          fields := instanceFields scenarioSnapshot scenarioFirst, time := 0 } : Point),
       ({ name := "instances", tags := instanceTags scenarioSecond,
          fields := instanceFields scenarioSnapshot scenarioSecond, time := 0 } : Point)]) := rfl
  rw [hr] at hrun
  injection hrun with h
  injection h with h1 h2
  injection h2 with h3 h4
  subst h3
  subst h4
  refine ⟨_, _, hr, rfl, ?_, hlen, ?_⟩
  · rw [hf]
    rfl
  · obtain ⟨p, _, hp, _, _, ht, _⟩ := hat 0 scenarioFirst rfl
    refine ⟨p, hp, ?_⟩
    rw [ht]
    decide

/-! ## `idb`, `getData`, `doStuff` -/

/-- C15, as stated, fails: with `INFLUXDB_CONNECTION` set to the empty string
the variable is set, yet the address chosen by `idb` is the default and not the
variable's value. -/
theorem C15_set_to_empty_counterexample :
    environWith "" "INFLUXDB_CONNECTION" = some "" ∧
      ∃ c bp, idb (environWith "") = .ok (c, bp) ∧
        c.conf.Addr = "http://localhost:8086" ∧
        some c.conf.Addr ≠ environWith "" "INFLUXDB_CONNECTION" := by
  refine ⟨by decide, _, _, rfl, by decide, by decide⟩

/-- C15, amended: the address chosen by `idb` is the value of
`INFLUXDB_CONNECTION` when the variable is set to a non-empty string, and
`"http://localhost:8086"` when it is unset or set to the empty string; the
batch is configured with database `"mastidon"` and precision `"s"` whatever the
environment. -/
theorem C15_sink_address (environ : String → Option String) :
    ∃ c bp, idb environ = .ok (c, bp) ∧
      (∀ v, environ "INFLUXDB_CONNECTION" = some v → v ≠ "" → c.conf.Addr = v) ∧
      (environ "INFLUXDB_CONNECTION" = none ∨ environ "INFLUXDB_CONNECTION" = some "" →
        c.conf.Addr = "http://localhost:8086") ∧
      bp.conf.Database = "mastidon" ∧ bp.conf.Precision = "s" := by
  refine ⟨_, _, rfl, ?_, ?_, rfl, rfl⟩
  · intro v hv hne
    show (if Getenv environ "INFLUXDB_CONNECTION" = "" then "http://localhost:8086"
      else Getenv environ "INFLUXDB_CONNECTION") = v
    have hg : Getenv environ "INFLUXDB_CONNECTION" = v := by simp [Getenv, hv]
    rw [hg, if_neg hne]
  · intro h
    show (if Getenv environ "INFLUXDB_CONNECTION" = "" then "http://localhost:8086"
      else Getenv environ "INFLUXDB_CONNECTION") = _
    have hg : Getenv environ "INFLUXDB_CONNECTION" = "" := by
      rcases h with h | h <;> simp [Getenv, h]
    rw [if_pos hg]

/-- Witness of the amended C15: with the variable set to
`"http://influx.example:8086"` that value is the address. -/
theorem C15_sink_address_witness :
    ∃ c bp, idb (environWith "http://influx.example:8086") = .ok (c, bp) ∧
      c.conf.Addr = "http://influx.example:8086" ∧
      bp.conf.Database = "mastidon" ∧ bp.conf.Precision = "s" := by
  obtain ⟨c, bp, h, hset, _, hd, hp⟩ := C15_sink_address (environWith "http://influx.example:8086")
  exact ⟨c, bp, h, hset _ (by decide) (by decide), hd, hp⟩

/-- C16: when the request and the reading of its body succeed, `getData`
returns the snapshot the decoder left in `r`, whatever error the decoder
returned; `doStuff` then builds the totals point and the instance points from
that snapshot, adds them to the batch in that order and calls the write: the
cycle fails only if the write does. -/
theorem C16_decode_error_not_surfaced (w : World) (resp body : List Nat)
    (hget : w.httpGet "https://instances.mastodon.xyz/list.json" = .ok resp)
    (hread : w.readAll resp = .ok body) :
    getData w = .ok (w.unmarshal body zeroSnapshot).1 ∧
    ∃ c bp pt pts,
      idb w.environ = .ok (c, bp) ∧
      (w.unmarshal body zeroSnapshot).1.TotalPoint (w.now 0) = .ok pt ∧
      (w.unmarshal body zeroSnapshot).1.InstancesPoints (fun k => w.now (k + 1)) = .ok pts ∧
      ((bp.AddPoint pt).AddPoints pts).points = pt :: pts ∧
      doStuff w
        = match w.write c ((bp.AddPoint pt).AddPoints pts) with
          | some err => .error err
          | none => .ok ((bp.AddPoint pt).AddPoints pts) := by
  have hdata : getData w = .ok (w.unmarshal body zeroSnapshot).1 := by
    unfold getData
    rw [hget]
    simp only []
    rw [hread]
  obtain ⟨pts, hpts, _⟩ :=
    instancesPoints_spec (w.unmarshal body zeroSnapshot).1 (fun k => w.now (k + 1))
  refine ⟨hdata, _, _, _, pts, rfl, totalPoint_eq _ _, hpts, rfl, ?_⟩
  unfold doStuff
  rw [hdata]
  simp only [idb, NewHTTPClient, NewBatchPoints, totalPoint_eq, hpts]

/-- Witness of C16: for a body the decoder rejects, `getData` returns the
zero-valued snapshot and `doStuff` writes a batch holding the one totals point,
with `totalInstances = 0`. -/
theorem C16_decode_error_not_surfaced_witness :
    (malformedWorld.unmarshal [123, 33] zeroSnapshot).2 ≠ none ∧
      getData malformedWorld = .ok zeroSnapshot ∧
      ∃ bp pt, doStuff malformedWorld = .ok bp ∧ bp.points = [pt] ∧ pt.name = "totals" ∧
        pt.fields "totalInstances" = some (.int 0) := by
  obtain ⟨hdata, c, bp, pt, pts, _, hpt, hpts, hpoints, hdo⟩ :=
    C16_decode_error_not_surfaced malformedWorld [123, 33] [123, 33] rfl rfl
  have hpt2 : pt = { name := "totals", tags := totalTags, fields := totalFields zeroSnapshot,
                     time := 0 } := by
    have h2 : Instances.TotalPoint zeroSnapshot 0 = .ok _ := rfl
    have h3 : (malformedWorld.unmarshal [123, 33] zeroSnapshot).1.TotalPoint (malformedWorld.now 0)
      = Instances.TotalPoint zeroSnapshot 0 := rfl
    rw [h3, h2] at hpt
    injection hpt with h
    exact h.symm
  have hpts2 : pts = [] := by
    have h2 : Instances.InstancesPoints zeroSnapshot (fun k => malformedWorld.now (k + 1))
      = .ok [] := rfl
    have h3 : (malformedWorld.unmarshal [123, 33] zeroSnapshot).1.InstancesPoints
        (fun k => malformedWorld.now (k + 1))
      = Instances.InstancesPoints zeroSnapshot (fun k => malformedWorld.now (k + 1)) := rfl
    rw [h3, h2] at hpts
    injection hpts with h
    exact h.symm
  refine ⟨by decide, hdata, (bp.AddPoint pt).AddPoints pts, pt, ?_, ?_, ?_, ?_⟩
  · rw [hdo]
    rfl
  · rw [hpoints, hpts2]
  · rw [hpt2]
  · rw [hpt2]
    rfl

/-! ## Order and repetition in a prohibited-content list -/

/-- The tags of a record are determined by the set of names in its
prohibited-content list. -/
theorem instanceTags_of_same_set (inst : Instance) (l l' : List String)
    (hset : ∀ x, x ∈ l ↔ x ∈ l') :
    instanceTags (withProhibitedContent inst l) = instanceTags (withProhibitedContent inst l') := by
  funext k
  have h1 : initialTags (withProhibitedContent inst l) = initialTags inst := rfl
  have h2 : initialTags (withProhibitedContent inst l') = initialTags inst := rfl
  have h3 : (withProhibitedContent inst l).Infos.ProhibitedContent = l := rfl
  have h4 : (withProhibitedContent inst l').Infos.ProhibitedContent = l' := rfl
  unfold instanceTags
  rw [h1, h2, h3, h4, foldl_banStep, foldl_banStep]
  by_cases hk : k ∈ l
  · have hk' : k ∈ l' := (hset k).1 hk
    simp [hk, hk']
  · have hk' : ¬ k ∈ l' := fun h => hk ((hset k).2 h)
    simp [hk, hk']

/-- Giving one instance of a snapshot either of two lists with the same set of
names yields points with the same tags. -/
theorem samePointTags_of_same_set (s : Instances) (a : Nat) (l l' : List String)
    (hset : ∀ x, x ∈ l ↔ x ∈ l') :
    SamePointTags (replaceProhibitedContent s a l) (replaceProhibitedContent s a l') := by
  intro nowk nowk'
  obtain ⟨pts, hpts, _⟩ := instancesPoints_spec (replaceProhibitedContent s a l) nowk
  obtain ⟨pts', hpts', _⟩ := instancesPoints_spec (replaceProhibitedContent s a l') nowk'
  obtain ⟨hlen, hat⟩ := instancesPoints_at _ nowk pts hpts
  obtain ⟨hlen', hat'⟩ := instancesPoints_at _ nowk' pts' hpts'
  refine ⟨pts, pts', hpts, hpts', ?_, ?_⟩
  · rw [hlen, hlen', replaceProhibitedContent_length, replaceProhibitedContent_length]
  · intro k p p' hp hp'
    have hk : k < s.Instances.length := by
      by_contra hge
      rw [List.getElem?_eq_none (by rw [hlen, replaceProhibitedContent_length]; omega)] at hp
      exact Option.noConfusion hp
    have hi : s.Instances[k]? = some (s.Instances[k]) := List.getElem?_eq_getElem hk
    by_cases hka : k = a
    · subst hka
      have e1 := replaceProhibitedContent_at s k l _ hi
      have e2 := replaceProhibitedContent_at s k l' _ hi
      rw [(hat k _ p e1 hp).1, (hat' k _ p' e2 hp').1]
      exact instanceTags_of_same_set _ l l' hset
    · have e1 : (replaceProhibitedContent s a l).Instances[k]? = some (s.Instances[k]) := by
        rw [replaceProhibitedContent_other s a k l hka, hi]
      have e2 : (replaceProhibitedContent s a l').Instances[k]? = some (s.Instances[k]) := by
        rw [replaceProhibitedContent_other s a k l' hka, hi]
      rw [(hat k _ p e1 hp).1, (hat' k _ p' e2 hp').1]

/-- C18: the tags of the point of an instance depend only on the set of names
in its prohibited-content list: two lists with the same members, a list and a
permutation of it, and a list and the list with one entry repeated any number
of times, all yield the same tags; and a tag that holds `"banned"` keeps it
through every further step of the loop. -/
theorem C18_tags_depend_on_set (s : Instances) (a : Nat) :
    (∀ l l' : List String, (∀ x, x ∈ l ↔ x ∈ l') →
      SamePointTags (replaceProhibitedContent s a l) (replaceProhibitedContent s a l')) ∧
    (∀ l l' : List String, l.Perm l' →
      SamePointTags (replaceProhibitedContent s a l) (replaceProhibitedContent s a l')) ∧
    (∀ (l₁ l₂ : List String) (e : String) (n : Nat),
      SamePointTags (replaceProhibitedContent s a (l₁ ++ e :: l₂))
        (replaceProhibitedContent s a (l₁ ++ (List.replicate (n + 1) e ++ l₂)))) ∧
    (∀ (m : GoMap String) (pro k : String),
      m k = some "banned" → banStep m pro k = some "banned") := by
  refine ⟨?_, ?_, ?_, ?_⟩
  · intro l l' hset
    exact samePointTags_of_same_set s a l l' hset
  · intro l l' hperm
    exact samePointTags_of_same_set s a l l' (fun x => hperm.mem_iff)
  · intro l₁ l₂ e n
    apply samePointTags_of_same_set
    intro x
    simp only [List.mem_append, List.mem_cons, List.mem_replicate]
    constructor
    · rintro (h | h | h)
      · exact Or.inl h
      · exact Or.inr (Or.inl ⟨by omega, h⟩)
      · exact Or.inr (Or.inr h)
    · rintro (h | ⟨_, h⟩ | h)
      · exact Or.inl h
      · exact Or.inr (Or.inl h)
      · exact Or.inr (Or.inr h)
  · intro m pro k hk
    unfold banStep
    by_cases hp : mapIndex m pro = "allowed"
    · rw [if_pos hp]
      by_cases hkp : k = pro
      · simp [mapAssign, hkp]
      · simp [mapAssign, hkp, hk]
    · rw [if_neg hp]
      exact hk

/-- Witness of C18 on the scenario of the spec: the lists `["spam", "racism"]`
and `["racism", "spam", "spam", "racism"]` give the first instance the same
tags, with `spam` and `racism` both `"banned"`. -/
theorem C18_tags_depend_on_set_witness :
    ∃ pts pts',
      (replaceProhibitedContent scenarioSnapshot 0 ["spam", "racism"]).InstancesPoints
        (fun _ => 0) = .ok pts ∧
      (replaceProhibitedContent scenarioSnapshot 0
        ["racism", "spam", "spam", "racism"]).InstancesPoints (fun _ => 0) = .ok pts' ∧
      ∀ p p', pts[0]? = some p → pts'[0]? = some p' →
        p.tags = p'.tags ∧ p'.tags "spam" = some "banned" ∧
        p'.tags "racism" = some "banned" := by
  obtain ⟨hset, _, _, _⟩ := C18_tags_depend_on_set scenarioSnapshot 0
  obtain ⟨pts, pts', hpts, hpts', _, hsame⟩ :=
    hset ["spam", "racism"] ["racism", "spam", "spam", "racism"]
      (by intro x; simp only [List.mem_cons, List.mem_singleton, List.not_mem_nil]; tauto)
      (fun _ => 0) (fun _ => 0)
  refine ⟨pts, pts', hpts, hpts', ?_⟩
  intro p p' hp hp'
  have ht := hsame 0 p p' hp hp'
  obtain ⟨_, hat⟩ := instancesPoints_at _ _ pts hpts
  have hp1 := (hat 0 (withProhibitedContent scenarioFirst ["spam", "racism"]) p rfl hp).1
  refine ⟨ht, ?_, ?_⟩
  · rw [← ht, hp1]
    decide
  · rw [← ht, hp1]
    decide

/-! ## Order of the instances -/

/-- C19: for a snapshot (a Go slice has fewer than `2^63` elements) and any
permutation `l` of its instance list, `TotalPoint` yields the same tags and the
same fields (`totalUsers`, `totalInstances`, `totalStatuses` and the nine
`above` fields); and for every threshold `t`,
`0 ≤ AboveUsers(t) ≤ totalInstances`. -/
theorem C19_totals_order_independent (s : Instances) (l : List Instance) (now : Int)
    (hperm : l.Perm s.Instances) (hlen : s.Instances.length < 2 ^ 63) :
    ∃ pt pt', s.TotalPoint now = .ok pt ∧
      Instances.TotalPoint { s with Instances := l } now = .ok pt' ∧
      pt'.tags = pt.tags ∧ pt'.fields = pt.fields ∧
      pt.fields "totalInstances" = some (.int s.Instances.length) ∧
      ∀ t : Int, 0 ≤ s.AboveUsers t ∧ s.AboveUsers t ≤ pt.intField "totalInstances" := by
  refine ⟨_, _, totalPoint_eq s now, totalPoint_eq _ now, rfl, totalFields_perm s l hperm, rfl, ?_⟩
  intro t
  rw [aboveUsers_eq_count s t hlen]
  refine ⟨by omega, ?_⟩
  show _ ≤ ((s.Instances.length : Nat) : Int)
  exact_mod_cast List.length_filter_le _ _

/-- Witness of C19 on the scenario of the spec with its two instances
swapped. -/
theorem C19_totals_order_independent_witness :
    ∃ pt pt', scenarioSnapshot.TotalPoint 0 = .ok pt ∧
      Instances.TotalPoint { scenarioSnapshot with Instances := [scenarioSecond, scenarioFirst] } 0
        = .ok pt' ∧
      pt'.fields = pt.fields ∧ pt'.fields "above1000" = some (.int 1) ∧
      scenarioSnapshot.AboveUsers 1000 ≤ 2 := by
  obtain ⟨pt, pt', hpt, hpt', _, hf, _, hb⟩ :=
    C19_totals_order_independent scenarioSnapshot [scenarioSecond, scenarioFirst] 0
      (List.Perm.swap _ _ _) (by decide)
  refine ⟨pt, pt', hpt, hpt', hf, ?_, by decide⟩
  have h2 : Instances.TotalPoint
      { scenarioSnapshot with Instances := [scenarioSecond, scenarioFirst] } 0 = .ok _ := rfl
  rw [h2] at hpt'
  injection hpt' with h
  rw [← h]
  decide

end Mastidon
